import Mathlib

/-!
# Verification of the `legolas_common` message protocol and transport layer

Shallow embedding of the repository's Python sources:

* `src/packet_types.py` — `PacketAddress`, `PacketType`, `Payload`, `Packet`
  with `Packet.pack` / `Packet.unpack` (the binary wire protocol);
* `src/socket_server.py` — the routing loop body of `SocketServer._run_handler`;
* `src/socket_client.py` — the reconnect loop body of `SocketClient._run_handler`.

Modelling conventions:

* byte strings are `List Nat` (each entry one octet);
* a Python expression that can raise is modelled with `Option` — `none` is a
  raised exception, `some` a normal return;
* Python `float` time values are modelled as `ℚ`.  The IEEE-754 `d` field of
  the wire header is modelled width-faithfully (exactly 8 bytes) with an
  abstracted value codec, since no verified property depends on the numeric
  value of a transmitted timestamp;
* external libraries invoked by the code (`struct`, `pickle`, `cv2`,
  `str.encode`/`bytes.decode`, `int.to_bytes`/`int.from_bytes`) are modelled
  by executable functions with the documented behaviour of those calls.
-/

namespace Legolas

/-! ## Byte-level helpers (model of `struct` packing and `int.to_bytes`) -/

/-- Fixed-width big-endian byte encoding of a natural number, as produced by
`struct.pack` for the unsigned fields of the header. -/
def natToBytesBE : Nat → Nat → List Nat
  | 0, _ => []
  | w + 1, n => natToBytesBE w (n / 256) ++ [n % 256]

/-- Big-endian byte decoding; models `int.from_bytes(bs)` (default

`byteorder='big'`), which maps the empty byte string to `0`. -/
def natFromBytesBE (bs : List Nat) : Nat :=
  bs.foldl (fun a b => a * 256 + b) 0

/-- UTF-8 byte sequence of one Unicode scalar value (`n < 0x110000`, not a
surrogate); this is the per-character behaviour of `str.encode()`. -/
def utf8EncodeScalar (n : Nat) : List Nat :=
  if n < 0x80 then [n]
  else if n < 0x800 then [0xC0 + n / 64, 0x80 + n % 64]
  else if n < 0x10000 then [0xE0 + n / 4096, 0x80 + n / 64 % 64, 0x80 + n % 64]
  else [0xF0 + n / 262144, 0x80 + n / 4096 % 64, 0x80 + n / 64 % 64, 0x80 + n % 64]

/-- Models `payload.encode()`: the UTF-8 bytes of the string. -/
def utf8Encode (s : String) : List Nat :=
  s.data.flatMap fun c => utf8EncodeScalar c.toNat

/-- Scalar value encoded by a two-byte UTF-8 sequence. -/
def utf8Scalar2 (b0 b1 : Nat) : Nat := (b0 - 0xC0) * 64 + (b1 - 0x80)

/-- Scalar value encoded by a three-byte UTF-8 sequence. -/
def utf8Scalar3 (b0 b1 b2 : Nat) : Nat :=
  (b0 - 0xE0) * 4096 + (b1 - 0x80) * 64 + (b2 - 0x80)

/-- Scalar value encoded by a four-byte UTF-8 sequence. -/
def utf8Scalar4 (b0 b1 b2 b3 : Nat) : Nat :=
  (b0 - 0xF0) * 262144 + (b1 - 0x80) * 4096 + (b2 - 0x80) * 64 + (b3 - 0x80)

/-- A UTF-8 continuation byte. -/
def utf8Cont (b : Nat) : Prop := 0x80 ≤ b ∧ b < 0xC0

instance (b : Nat) : Decidable (utf8Cont b) := by
  unfold utf8Cont
  infer_instance

/-- One scalar step of strict UTF-8 decoding: classify the lead byte `b0`,
check the continuation bytes at the front of `bs`, and return the decoded
scalar value together with the remaining bytes.  Overlong forms, surrogates
and out-of-range scalars are rejected, as in Python's strict codec. -/
def utf8DecodeOne (b0 : Nat) (bs : List Nat) : Option (Nat × List Nat) :=
  if b0 < 0x80 then some (b0, bs)
  else if b0 < 0xC0 then none
  else if b0 < 0xE0 then
    if 1 ≤ bs.length ∧ utf8Cont (bs.headD 0) ∧ 0x80 ≤ utf8Scalar2 b0 (bs.headD 0) then
      some (utf8Scalar2 b0 (bs.headD 0), bs.tail)
    else none
  else if b0 < 0xF0 then
    if 2 ≤ bs.length ∧ utf8Cont (bs.headD 0) ∧ utf8Cont (bs.tail.headD 0) ∧
        0x800 ≤ utf8Scalar3 b0 (bs.headD 0) (bs.tail.headD 0) ∧
        (utf8Scalar3 b0 (bs.headD 0) (bs.tail.headD 0) < 0xD800 ∨
          0xDFFF < utf8Scalar3 b0 (bs.headD 0) (bs.tail.headD 0)) then
      some (utf8Scalar3 b0 (bs.headD 0) (bs.tail.headD 0), bs.tail.tail)
    else none
  else if b0 < 0xF5 then
    if 3 ≤ bs.length ∧ utf8Cont (bs.headD 0) ∧ utf8Cont (bs.tail.headD 0) ∧
        utf8Cont (bs.tail.tail.headD 0) ∧
        0x10000 ≤ utf8Scalar4 b0 (bs.headD 0) (bs.tail.headD 0) (bs.tail.tail.headD 0) ∧
        utf8Scalar4 b0 (bs.headD 0) (bs.tail.headD 0) (bs.tail.tail.headD 0) < 0x110000 then
      some (utf8Scalar4 b0 (bs.headD 0) (bs.tail.headD 0) (bs.tail.tail.headD 0),
        bs.tail.tail.tail)
    else none
  else none

/-- Strict UTF-8 decoding loop; the fuel argument makes the recursion
structural (it is always instantiated with the length of the byte list,
which bounds the number of decoded characters). -/
def utf8DecodeAux : Nat → List Nat → Option (List Char)
  | _, [] => some []
  | 0, _ :: _ => none
  | fuel + 1, b0 :: bs =>
    match utf8DecodeOne b0 bs with
    | none => none
    | some (n, rest) => (utf8DecodeAux fuel rest).map (Char.ofNat n :: ·)

/-- Strict UTF-8 decoder: models `payload_data.decode()`; `none` models a
raised `UnicodeDecodeError` (truncated sequence, stray continuation byte,
overlong form, surrogate or out-of-range scalar). -/
def utf8Decode (bs : List Nat) : Option (List Char) :=
  utf8DecodeAux bs.length bs

/-- Models `payload_data.decode()` producing a Python `str`. -/
def pyBytesDecode (bs : List Nat) : Option String :=
  (utf8Decode bs).map fun cs => String.mk cs

/-! ## Model of `pickle` (external library)

`Packet.pack` serializes `dict` payloads with `pickle.dumps` and
`Packet.unpack` reads them back with `pickle.loads`.  The pickle byte format
itself is external to this repository; it is modelled here by a
deterministic, reversible, self-describing encoding of the dict payloads the
repository exchanges (string keys and values, as in `test/packet_test.py`),
which is the contract `Packet.pack`/`Packet.unpack` rely on. -/

/-- Self-delimiting length marker used by the pickle model. -/
def natUnary (n : Nat) : List Nat := List.replicate n 1 ++ [0]

/-- A length-framed UTF-8 string blob of the pickle model. -/
def strBlob (s : String) : List Nat := natUnary (utf8Encode s).length ++ utf8Encode s

/-- Models `pickle.dumps(payload)` for a dict payload. -/
def pickleDumps (d : List (String × String)) : List Nat :=
  natUnary d.length ++ d.flatMap fun kv => strBlob kv.1 ++ strBlob kv.2

def parseUnary : List Nat → Option (Nat × List Nat)
  | [] => none
  | b :: rest =>
    if b = 0 then some (0, rest)
    else if b = 1 then (parseUnary rest).map fun p => (p.1 + 1, p.2)
    else none

def parseBlob (bs : List Nat) : Option (String × List Nat) :=
  match parseUnary bs with
  | none => none
  | some (n, rest) =>
    if n ≤ rest.length then
      match pyBytesDecode (rest.take n) with
      | none => none
      | some s => some (s, rest.drop n)
    else none

def parsePairs : Nat → List Nat → Option (List (String × String) × List Nat)
  | 0, bs => some ([], bs)
  | k + 1, bs =>
    match parseBlob bs with
    | none => none
    | some (key, bs1) =>
      match parseBlob bs1 with
      | none => none
      | some (v, bs2) =>
        match parsePairs k bs2 with
        | none => none
        | some (tl, bs3) => some ((key, v) :: tl, bs3)

/-- Models `pickle.loads(payload_data)`; `none` models a raised exception
(truncated or non-pickle bytes; in particular `pickle.loads(b"")` raises).
Trailing bytes after a complete object are ignored, as `pickle.loads` does. -/
def pickleLoads (bs : List Nat) : Option (List (String × String)) :=
  match parseUnary bs with
  | none => none
  | some (n, rest) =>
    match parsePairs n rest with
    | none => none
    | some (d, _) => some d

/-! ## `packet_types.py`: data model -/

/-- Model of `PacketAddress`: "Packet address information".  `ip` is a tuple of Python
ints (the constructor accepts dotted strings of any segment count, so the
tuple is not necessarily four octets), `port` the socket port. -/
structure PacketAddress where
  ip : List Int
  port : Int
deriving DecidableEq

/-- The `ip` argument of `PacketAddress.__init__`: either a tuple or a
string. -/
inductive IpArg
  | tup (t : List Int)
  | str (s : String)

/-- Models Python `int(s)` on its canonical ASCII integer literals (an
optional sign followed by decimal digits); `none` models `ValueError`. -/
def pyInt? (s : String) : Option Int :=
  match s.data with
  | [] => none
  | c :: cs =>
    if c = '-' then
      if cs ≠ [] ∧ cs.all Char.isDigit then
        some (-(cs.foldl (fun a d => a * 10 + (d.toNat - 48)) 0 : Nat))
      else none
    else if c = '+' then
      if cs ≠ [] ∧ cs.all Char.isDigit then
        some ((cs.foldl (fun a d => a * 10 + (d.toNat - 48)) 0 : Nat))
      else none
    else
      if (c :: cs).all Char.isDigit then
        some (((c :: cs).foldl (fun a d => a * 10 + (d.toNat - 48)) 0 : Nat))
      else none

/-- Models `ip.split(".")` on the Python string `s`. -/
def splitDotAux : List Char → List Char → List String
  | [], acc => [String.mk acc.reverse]
  | c :: rest, acc =>
    if c = '.' then String.mk acc.reverse :: splitDotAux rest [] else splitDotAux rest (c :: acc)

/-- Models `s.split(".")`. -/
def pySplitDot (s : String) : List String := splitDotAux s.data []

/-- Models the list comprehension
`tuple([int(segment) for segment in ip.split(".")])`: `none` when some
segment raises. -/
def parseSegments : List String → Option (List Int)
  | [] => some []
  | s :: rest =>
    match pyInt? s with
    | none => none
    | some v =>
      match parseSegments rest with
      | none => none
      | some vs => some (v :: vs)

/-- Models `PacketAddress.__init__(ip, port)`; `none` models a raised
`ValueError`.  A 4-tuple is taken as is; any other tuple raises; a string is
split on `"."` and each segment converted with `int`, with no check on the
number of segments. -/
def PacketAddress.make (ip : IpArg) (port : Int) : Option PacketAddress :=
  match ip with
  | .tup t => if t.length = 4 then some ⟨t, port⟩ else none
  | .str s =>
    match parseSegments (pySplitDot s) with
    | none => none
    | some vs => some ⟨vs, port⟩

/-- Model of `BROADCAST_DEST = PacketAddress("0.0.0.0", 0)`. -/
def BROADCAST_DEST : PacketAddress := ⟨[0, 0, 0, 0], 0⟩

/-- Model of `PacketType`: "Types of packets". -/
inductive PacketType
  | CONTROL
  | IMAGE
  | ACK
  | INTERNAL
deriving DecidableEq

/-- The enum value of each `PacketType` member. -/
def PacketType.value : PacketType → Nat
  | .CONTROL => 0
  | .IMAGE => 1
  | .ACK => 2
  | .INTERNAL => 3

/-- Models the enum call `PacketType(v)`; `none` models the `ValueError`
raised for a value that is no member of the enum. -/
def PacketType.fromValue : Nat → Option PacketType
  | 0 => some .CONTROL
  | 1 => some .IMAGE
  | 2 => some .ACK
  | 3 => some .INTERNAL
  | _ => none

/-- The `Payload` type alias `dict | np.ndarray | int | str`.  An
`np.ndarray` raster is represented by its abstract byte content. -/
inductive Payload
  | pdict (d : List (String × String))
  | pimage (img : List Nat)
  | pint (n : Int)
  | pstr (s : String)
deriving DecidableEq

/-- Model of `Packet`: "Packet of data to transfer between clients and server". -/
structure Packet where
  packet_type : PacketType
  packet_address : PacketAddress
  payload : Payload
  timestamp : ℚ
deriving DecidableEq

/-! ## `packet_types.py`: the wire format -/

/-- Byte width of one `struct` format character of `HEADER_FORMAT`
(`!` is the byte-order prefix and occupies no bytes). -/
def structFieldSize (c : Char) : Nat :=
  if c = 'B' then 1
  else if c = 'i' then 4
  else if c = 'Q' then 8
  else if c = 'd' then 8
  else 0

/-- Models `struct.calcsize` on the header format string. -/
def structCalcsize (fmt : String) : Nat :=
  (fmt.data.map structFieldSize).sum

/-- Model of `Packet.HEADER_FORMAT = "!BBBBBiQd"`. -/
def HEADER_FORMAT : String := "!BBBBBiQd"

/-- Model of `Packet.HEADER_SIZE = struct.calcsize(HEADER_FORMAT)`. -/
def HEADER_SIZE : Nat := structCalcsize HEADER_FORMAT

/-- Value model of the IEEE-754 `d` (double) header field written with
`time.time()`: width-faithful (8 bytes on the wire); the transported bit
pattern is abstracted, since floating point does not embed shallowly and no
verified property depends on a timestamp's numeric value. -/
def packDouble (t : ℚ) : List Nat :=
  natToBytesBE 8 ((t.num.natAbs + t.den) % 2 ^ 64)

/-- Read-back of the abstracted `d` field. -/
def unpackDouble (bs : List Nat) : ℚ :=
  (natFromBytesBE bs : ℚ)

/-- Decoding of the big-endian signed 32-bit `i` field (two's complement). -/
def unpackInt32 (bs : List Nat) : Int :=
  if natFromBytesBE bs < 2 ^ 31 then (natFromBytesBE bs : Int)
  else (natFromBytesBE bs : Int) - 2 ^ 32

/-- Models `struct.pack(HEADER_FORMAT, type, *ip, port, payload_len, time.time())`.
`none` models `struct.error`: the `*ip` splat must supply exactly four
values, each `B` field must be in `0..255`, the `i` field a signed 32-bit
value and the `Q` field an unsigned 64-bit value. -/
def packHeader (ptype : Nat) (ip : List Int) (port : Int) (plen : Nat) (now : ℚ) :
    Option (List Nat) :=
  match ip with
  | [a0, a1, a2, a3] =>
    if ptype < 256 ∧ 0 ≤ a0 ∧ a0 < 256 ∧ 0 ≤ a1 ∧ a1 < 256 ∧ 0 ≤ a2 ∧ a2 < 256 ∧
        0 ≤ a3 ∧ a3 < 256 ∧ -(2 ^ 31) ≤ port ∧ port < 2 ^ 31 ∧ plen < 2 ^ 64 then
      some ([ptype, a0.toNat, a1.toNat, a2.toNat, a3.toNat] ++
        natToBytesBE 4 (port % 2 ^ 32).toNat ++ natToBytesBE 8 plen ++ packDouble now)
    else none
  | _ => none

/-- The payload serialization branch of `Packet.pack` (the `isinstance`
dispatch).  `int.to_bytes()` has the Python 3.11+ defaults `length=1,
byteorder='big', signed=False`, so it yields exactly one byte and raises
`OverflowError` (modelled `none`) outside `0..255`; `cv2.imencode` and
`pickle.dumps` are the modelled external encoders; `str.encode()` is UTF-8. -/
def payloadBytes : Payload → Option (List Nat)
  | .pint n => if 0 ≤ n ∧ n < 256 then some [n.toNat] else none
  | .pimage img => some img
  | .pdict d => some (pickleDumps d)
  | .pstr s => some (utf8Encode s)

/-- Model of `Packet.pack(packet)`: serialize the payload, pack the header
(`type`, the four address octets, the port, the payload length and the
transmission time), and concatenate.  The `now` argument stands for the
`time.time()` call in the header. -/
def Packet.pack (p : Packet) (now : ℚ) : Option (List Nat) :=
  match payloadBytes p.payload with
  | none => none
  | some pdata =>
    match packHeader p.packet_type.value p.packet_address.ip p.packet_address.port
        pdata.length now with
    | none => none
    | some hdr => some (hdr ++ pdata)

/-- The header fields produced by
`struct.unpack(HEADER_FORMAT, data[:HEADER_SIZE])`. -/
structure WireHeader where
  ptype : Nat
  o0 : Int
  o1 : Int
  o2 : Int
  o3 : Int
  port : Int
  plen : Nat
  ts : ℚ
deriving DecidableEq

/-- Models `struct.unpack(HEADER_FORMAT, hdr)` for the 25-byte header slice:
byte 0 is the type, bytes 1-4 the address octets, bytes 5-8 the signed port,
bytes 9-16 the unsigned payload length, bytes 17-24 the double timestamp. -/
def parseHeader (hdr : List Nat) : WireHeader :=
  { ptype := hdr.headD 0
    o0 := (hdr.tail.headD 0 : Int)
    o1 := (hdr.tail.tail.headD 0 : Int)
    o2 := (hdr.tail.tail.tail.headD 0 : Int)
    o3 := (hdr.tail.tail.tail.tail.headD 0 : Int)
    port := unpackInt32 ((hdr.drop 5).take 4)
    plen := natFromBytesBE ((hdr.drop 9).take 8)
    ts := unpackDouble ((hdr.drop 17).take 8) }

/-- The per-kind payload decoding branch of `Packet.unpack` (mirrors the
per-kind encoding): `pickle.loads` for CONTROL, `cv2.imdecode` for IMAGE,
`int.from_bytes` for ACK, `bytes.decode()` for INTERNAL; `none` models a
raised exception in the decoder. -/
def decodePayload (pt : PacketType) (payload_data : List Nat) : Option Payload :=
  match pt with
  | .CONTROL => (pickleLoads payload_data).map .pdict
  | .IMAGE => some (.pimage payload_data)
  | .ACK => some (.pint (natFromBytesBE payload_data))
  | .INTERNAL => (pyBytesDecode payload_data).map .pstr

/-- Model of `Packet.unpack(data)`: parse the first complete packet out of `data` and
return the remaining bytes.  The outer `none` models a raised exception
(invalid enum value in the type byte, `pickle.loads` failure, or a
`UnicodeDecodeError`); `some (none, data)` is the "no complete packet yet"
return with the buffer unchanged. -/
def Packet.unpack (data : List Nat) : Option (Option Packet × List Nat) :=
  if data.length < HEADER_SIZE then some (none, data)
  else
    if data.length < HEADER_SIZE + (parseHeader (data.take HEADER_SIZE)).plen then
      some (none, data)
    else
      match PacketType.fromValue (parseHeader (data.take HEADER_SIZE)).ptype with
      | none => none
      | some pt =>
        match decodePayload pt
            ((data.drop HEADER_SIZE).take (parseHeader (data.take HEADER_SIZE)).plen) with
        | none => none
        | some pl =>
          some (some
            { packet_type := pt
              packet_address :=
                { ip := [(parseHeader (data.take HEADER_SIZE)).o0,
                    (parseHeader (data.take HEADER_SIZE)).o1,
                    (parseHeader (data.take HEADER_SIZE)).o2,
                    (parseHeader (data.take HEADER_SIZE)).o3]
                  port := (parseHeader (data.take HEADER_SIZE)).port }
              payload := pl
              timestamp := (parseHeader (data.take HEADER_SIZE)).ts },
            data.drop (HEADER_SIZE + (parseHeader (data.take HEADER_SIZE)).plen))

/-- The payload shape prescribed for each kind by the `Payload` type alias
(`dict` for CONTROL, `np.ndarray` for IMAGE, `int` for ACK, `str` for
INTERNAL). -/
def payloadMatchesKind (p : Packet) : Bool :=
  match p.packet_type, p.payload with
  | .CONTROL, .pdict _ => true
  | .IMAGE, .pimage _ => true
  | .ACK, .pint _ => true
  | .INTERNAL, .pstr _ => true
  | _, _ => false

/-! ## `socket_server.py`: the routing loop -/

/-- The `msg.packet_type == PacketType.INTERNAL and msg.payload == "CONN_SHUTDOWN"`
test shared by `SocketServer._run_handler` and `SocketClient._run_handler`. -/
def isShutdownMsg (m : Packet) : Bool :=
  m.packet_type == .INTERNAL && m.payload == .pstr "CONN_SHUTDOWN"

/-- The server's per-client queue maps (`rx_queues` / `tx_queues`): an
insertion-ordered association list standing for a Python dict keyed by
`PacketAddress`; queues are FIFO lists (front = next to be dequeued). -/
abbrev QMap := List (PacketAddress × List Packet)

/-- Keys of a queue map. -/
def qmapKeys (m : QMap) : List PacketAddress := m.map Prod.fst

/-- Draining one client's `rx_queue` in `SocketServer._run_handler`: a
`CONN_SHUTDOWN` internal message appends the client's address to
`remove_addrs` (counted here) and is not forwarded; every other message has
`msg.packet_address = addr` assigned and is forwarded.  Returns the number of
`remove_addrs` entries produced and the forwarded messages in order. -/
def drainClient (addr : PacketAddress) : List Packet → Nat × List Packet
  | [] => (0, [])
  | m :: ms =>
    if isShutdownMsg m then
      ((drainClient addr ms).1 + 1, (drainClient addr ms).2)
    else
      ((drainClient addr ms).1, { m with packet_address := addr } :: (drainClient addr ms).2)

/-- The full rx-drain phase over all registered clients: the `remove_addrs`
list (in iteration order, one entry per shutdown message) and the messages
forwarded to the shared `received_data` queue. -/
def serverDrainAll (rx : QMap) : List PacketAddress × List Packet :=
  (rx.flatMap fun aq => List.replicate (drainClient aq.1 aq.2).1 aq.1,
   rx.flatMap fun aq => (drainClient aq.1 aq.2).2)

/-- Models `del map[addr]`; `none` models a raised `KeyError`. -/
def pyDel (m : QMap) (a : PacketAddress) : Option QMap :=
  if a ∈ qmapKeys m then some (m.filter fun p => p.1 ≠ a) else none

/-- The removal loop `for addr in remove_addrs: del rx_queues[addr]; del
tx_queues[addr]`. -/
def serverRemove : List PacketAddress → QMap → QMap → Option (QMap × QMap)
  | [], rx, tx => some (rx, tx)
  | a :: rest, rx, tx =>
    match pyDel rx a with
    | none => none
    | some rx2 =>
      match pyDel tx a with
      | none => none
      | some tx2 => serverRemove rest rx2 tx2

/-- One rx-and-removal pass of `SocketServer._run_handler` (loop lines
96-111): drain every client's inbound queue, then delete the clients marked
for removal from both per-client maps.  Returns the updated maps and the
messages forwarded to `received_data`; `none` models a raised `KeyError`. -/
def serverRxStep (rx tx : QMap) : Option (QMap × QMap × List Packet) :=
  match serverRemove (serverDrainAll rx).1 rx tx with
  | none => none
  | some (rx2, tx2) => some (rx2, tx2, (serverDrainAll rx).2)

/-- The outgoing-routing step of `SocketServer._run_handler` (lines 112-124)
for one dequeued message: broadcast appends to every registered client's
queue; a known unicast address appends to that client's queue only; an
unknown address leaves the maps untouched and reports a delivery failure
(the caught `KeyError`, returned as `true`). -/
def routeOutgoing (msg : Packet) (tx : QMap) : QMap × Bool :=
  if msg.packet_address = BROADCAST_DEST then
    (tx.map fun aq => (aq.1, aq.2 ++ [msg]), false)
  else if msg.packet_address ∈ qmapKeys tx then
    (tx.map fun aq => if aq.1 = msg.packet_address then (aq.1, aq.2 ++ [msg]) else aq, false)
  else (tx, true)

/-! ## `socket_client.py`: the reconnect loop -/

/-- The mutable state of `SocketClient._run_handler` relevant to
reconnection: the `disconnected` flag and `prev_connection_time`
(initialized to `True` and `0` in `__init__`). -/
structure ClientState where
  disconnected : Bool
  prev_connection_time : ℚ
deriving DecidableEq

/-- One iteration of the `SocketClient._run_handler` loop.

Inputs: the retry interval, the state, the current `time.time()` value, the
outcome a connection attempt would have (`connectOk`), and the head of
`internal_recv` (`none` when the queue is empty).  Output: the new state,
whether a connection attempt was made this iteration, and the message
forwarded to `received_data` (if any).

While `disconnected`, an attempt is made only when
`now - prev_connection_time > disconnect_retry_interval`; on success
`disconnected` is cleared (and `prev_connection_time` is *not* updated); on
failure `prev_connection_time := now`.  While connected, a dequeued
`CONN_SHUTDOWN` internal message sets `disconnected` (without touching
`prev_connection_time`); any other message is forwarded. -/
def clientStep (retryInterval : ℚ) (s : ClientState) (now : ℚ) (connectOk : Bool)
    (incoming : Option Packet) : ClientState × Bool × Option Packet :=
  if s.disconnected then
    if retryInterval < now - s.prev_connection_time then
      if connectOk then (⟨false, s.prev_connection_time⟩, true, none)
      else (⟨true, now⟩, true, none)
    else (s, false, none)
  else
    match incoming with
    | none => (s, false, none)
    | some m =>
      if isShutdownMsg m then (⟨true, s.prev_connection_time⟩, false, none)
      else (s, false, some m)

/-! ## Theorems -/

theorem natToBytesBE_length (w n : Nat) : (natToBytesBE w n).length = w := by
  induction w generalizing n with
  | zero => rfl
  | succ w ih => simp [natToBytesBE, ih]

theorem natFromBytesBE_snoc (xs : List Nat) (b : Nat) :
    natFromBytesBE (xs ++ [b]) = natFromBytesBE xs * 256 + b := by
  simp [natFromBytesBE, List.foldl_append]

theorem natFromBytesBE_natToBytesBE (w n : Nat) (h : n < 256 ^ w) :
    natFromBytesBE (natToBytesBE w n) = n := by
  induction w generalizing n with
  | zero =>
    simp only [natToBytesBE, natFromBytesBE, List.foldl_nil]
    omega
  | succ w ih =>
    have h2 : n / 256 < 256 ^ w := by
      have : 256 ^ (w + 1) = 256 ^ w * 256 := by ring
      rw [Nat.div_lt_iff_lt_mul (by norm_num)]
      omega
    rw [natToBytesBE, natFromBytesBE_snoc, ih _ h2]
    omega

/-! ## UTF-8 (model of `str.encode()` and `bytes.decode()`) -/

theorem charOfNat_toNat (c : Char) : Char.ofNat c.toNat = c := by
  have h : c.val.toNat.isValidChar := c.valid
  apply Char.eq_of_val_eq
  apply UInt32.ext
  simp only [Char.ofNat, Char.toNat]
  split
  · rfl
  · next hn => exact absurd h hn

set_option maxRecDepth 4000 in
theorem utf8DecodeOne_rest_length (b0 : Nat) (bs : List Nat) (n : Nat) (rest : List Nat)
    (h : utf8DecodeOne b0 bs = some (n, rest)) : rest.length ≤ bs.length := by
  unfold utf8DecodeOne at h
  repeat' split at h
  all_goals cases h
  all_goals first
    | omega
    | (simp only [List.length_tail]; omega)

theorem utf8DecodeAux_fuel (f1 f2 : Nat) (bs : List Nat)
    (h1 : bs.length ≤ f1) (h2 : bs.length ≤ f2) :
    utf8DecodeAux f1 bs = utf8DecodeAux f2 bs := by
  induction f1 generalizing f2 bs with
  | zero =>
    cases bs with
    | nil => cases f2 <;> rfl
    | cons b0 bs => simp at h1
  | succ f1 ih =>
    cases bs with
    | nil => cases f2 <;> rfl
    | cons b0 bs =>
      cases f2 with
      | zero => simp at h2
      | succ f2 =>
        simp only [utf8DecodeAux]
        cases hstep : utf8DecodeOne b0 bs with
        | none => rfl
        | some p =>
          obtain ⟨n, rest⟩ := p
          have hlen := utf8DecodeOne_rest_length b0 bs n rest hstep
          simp only [List.length_cons] at h1 h2
          dsimp only
          rw [show utf8DecodeAux f1 rest = utf8DecodeAux f2 rest from
            ih _ _ (by omega) (by omega)]

theorem utf8DecodeOne_encodeScalar (c : Char) (bs : List Nat) :
    ∃ b0 rest, utf8EncodeScalar c.toNat = b0 :: rest ∧
      utf8DecodeOne b0 (rest ++ bs) = some (c.toNat, bs) := by
  have hv : c.toNat.isValidChar := c.valid
  set n := c.toNat with hn
  have hv2 : n < 0xD800 ∨ (0xDFFF < n ∧ n < 0x110000) := hv
  rcases Nat.lt_or_ge n 0x80 with h1 | h1
  · refine ⟨n, [], ?_, ?_⟩
    · simp only [utf8EncodeScalar, if_pos h1]
    · simp only [List.nil_append, utf8DecodeOne, if_pos h1]
  · rcases Nat.lt_or_ge n 0x800 with h2 | h2
    · refine ⟨0xC0 + n / 64, [0x80 + n % 64], ?_, ?_⟩
      · simp only [utf8EncodeScalar, if_neg (by omega : ¬ n < 0x80), if_pos h2]
      · unfold utf8DecodeOne utf8Cont utf8Scalar2
        simp only [List.cons_append, List.nil_append, List.headD_cons, List.tail_cons,
          List.length_cons]
        split_ifs
        all_goals first
          | (exfalso; omega)
          | (simp only [Option.some.injEq, Prod.mk.injEq]; exact ⟨by omega, trivial⟩)
    · rcases Nat.lt_or_ge n 0x10000 with h3 | h3
      · refine ⟨0xE0 + n / 4096, [0x80 + n / 64 % 64, 0x80 + n % 64], ?_, ?_⟩
        · simp only [utf8EncodeScalar, if_neg (by omega : ¬ n < 0x80),
            if_neg (by omega : ¬ n < 0x800), if_pos h3]
        · unfold utf8DecodeOne utf8Cont utf8Scalar3
          simp only [List.cons_append, List.nil_append, List.headD_cons, List.tail_cons,
            List.length_cons]
          split_ifs
          all_goals first
            | (exfalso; omega)
            | (simp only [Option.some.injEq, Prod.mk.injEq]; exact ⟨by omega, trivial⟩)
      · refine ⟨0xF0 + n / 262144, [0x80 + n / 4096 % 64, 0x80 + n / 64 % 64, 0x80 + n % 64],
          ?_, ?_⟩
        · simp only [utf8EncodeScalar, if_neg (by omega : ¬ n < 0x80),
            if_neg (by omega : ¬ n < 0x800), if_neg (by omega : ¬ n < 0x10000)]
        · unfold utf8DecodeOne utf8Cont utf8Scalar4
          simp only [List.cons_append, List.nil_append, List.headD_cons, List.tail_cons,
            List.length_cons]
          split_ifs
          all_goals first
            | (exfalso; omega)
            | (simp only [Option.some.injEq, Prod.mk.injEq]; exact ⟨by omega, trivial⟩)

theorem utf8Decode_encodeScalar (c : Char) (bs : List Nat) :
    utf8Decode (utf8EncodeScalar c.toNat ++ bs) =
      (utf8Decode bs).map (c :: ·) := by
  obtain ⟨b0, rest, henc, hone⟩ := utf8DecodeOne_encodeScalar c bs
  rw [utf8Decode, henc]
  simp only [List.cons_append, List.length_cons]
  simp only [utf8DecodeAux, hone]
  rw [show utf8DecodeAux ((rest ++ bs).length) bs = utf8DecodeAux bs.length bs from
    utf8DecodeAux_fuel _ _ _ (by simp) (le_refl _)]
  rw [charOfNat_toNat]
  rfl

theorem utf8Decode_flatMapEncode (cs : List Char) :
    utf8Decode (cs.flatMap fun c => utf8EncodeScalar c.toNat) = some cs := by
  induction cs with
  | nil => rfl
  | cons c cs ih => rw [List.flatMap_cons, utf8Decode_encodeScalar, ih]; rfl

theorem utf8Decode_utf8Encode (s : String) : utf8Decode (utf8Encode s) = some s.data :=
  utf8Decode_flatMapEncode s.data

theorem pyBytesDecode_utf8Encode (s : String) : pyBytesDecode (utf8Encode s) = some s := by
  rw [pyBytesDecode, utf8Decode_utf8Encode]
  cases s
  rfl

theorem parseUnary_natUnary (n : Nat) (rest : List Nat) :
    parseUnary (natUnary n ++ rest) = some (n, rest) := by
  induction n with
  | zero => rfl
  | succ n ih =>
    rw [show natUnary (n + 1) ++ rest = 1 :: (natUnary n ++ rest) by
      simp [natUnary, List.replicate_succ]]
    rw [parseUnary]
    simp [ih]

theorem parseBlob_strBlob (s : String) (rest : List Nat) :
    parseBlob (strBlob s ++ rest) = some (s, rest) := by
  rw [parseBlob, strBlob, List.append_assoc, parseUnary_natUnary]
  dsimp only
  rw [if_pos (by simp), List.take_left' rfl, pyBytesDecode_utf8Encode]
  dsimp only
  rw [List.drop_left' rfl]

theorem parsePairs_flatMap (d : List (String × String)) (rest : List Nat) :
    parsePairs d.length ((d.flatMap fun kv => strBlob kv.1 ++ strBlob kv.2) ++ rest) =
      some (d, rest) := by
  induction d with
  | nil => rfl
  | cons kv d ih =>
    obtain ⟨k, v⟩ := kv
    simp only [List.flatMap_cons, List.length_cons, List.append_assoc]
    rw [parsePairs, parseBlob_strBlob]
    dsimp only
    rw [parseBlob_strBlob]
    dsimp only
    rw [ih]

theorem pickleLoads_pickleDumps (d : List (String × String)) :
    pickleLoads (pickleDumps d) = some d := by
  rw [pickleLoads, pickleDumps]
  rw [show ((d.flatMap fun kv => strBlob kv.1 ++ strBlob kv.2) : List Nat) =
    (d.flatMap fun kv => strBlob kv.1 ++ strBlob kv.2) ++ [] from
      (List.append_nil _).symm]
  rw [parseUnary_natUnary]
  dsimp only
  rw [parsePairs_flatMap]

theorem BROADCAST_DEST_make : PacketAddress.make (.str "0.0.0.0") 0 = some BROADCAST_DEST := by
  decide

theorem PacketType.fromValue_value (t : PacketType) : PacketType.fromValue t.value = some t := by
  cases t <;> rfl

/-! ## Structure of packed data -/

theorem HEADER_SIZE_eq : HEADER_SIZE = 25 := by decide

theorem packDouble_length (t : ℚ) : (packDouble t).length = 8 := by
  simp [packDouble, natToBytesBE_length]

theorem unpackInt32_roundtrip (port : Int) (h1 : -(2 ^ 31) ≤ port) (h2 : port < 2 ^ 31) :
    unpackInt32 (natToBytesBE 4 (port % 2 ^ 32).toNat) = port := by
  have hlt : (port % 2 ^ 32).toNat < 256 ^ 4 := by
    have : (256 : Nat) ^ 4 = 2 ^ 32 := by norm_num
    omega
  rw [unpackInt32, natFromBytesBE_natToBytesBE _ _ hlt]
  split <;> omega

set_option maxRecDepth 8000 in
set_option maxHeartbeats 1000000 in
theorem parseHeader_concat (x0 x1 x2 x3 x4 : Nat) (A B C : List Nat)
    (hA : A.length = 4) (hB : B.length = 8) :
    parseHeader ([x0, x1, x2, x3, x4] ++ A ++ B ++ C) =
      { ptype := x0, o0 := (x1 : Int), o1 := (x2 : Int), o2 := (x3 : Int), o3 := (x4 : Int),
        port := unpackInt32 A, plen := natFromBytesBE B, ts := unpackDouble (C.take 8) } := by
  rcases A with _ | ⟨p0, _ | ⟨p1, _ | ⟨p2, _ | ⟨p3, _ | ⟨p4, A⟩⟩⟩⟩⟩ <;>
    rcases B with _ | ⟨q0, _ | ⟨q1, _ | ⟨q2, _ | ⟨q3, _ | ⟨q4, _ | ⟨q5, _ | ⟨q6, _ |
      ⟨q7, _ | ⟨q8, B⟩⟩⟩⟩⟩⟩⟩⟩⟩ <;>
    first
      | (exfalso; simp only [List.length_cons, List.length_nil] at hA hB; omega)
      | rfl

theorem Packet.pack_shape (p : Packet) (now : ℚ) (out : List Nat)
    (hpack : Packet.pack p now = some out) :
    ∃ hdr pdata, out = hdr ++ pdata ∧ hdr.length = HEADER_SIZE ∧
      payloadBytes p.payload = some pdata ∧ pdata.length < 2 ^ 64 ∧
      (parseHeader hdr).ptype = p.packet_type.value ∧
      p.packet_address.ip = [(parseHeader hdr).o0, (parseHeader hdr).o1,
        (parseHeader hdr).o2, (parseHeader hdr).o3] ∧
      (parseHeader hdr).port = p.packet_address.port ∧
      (parseHeader hdr).plen = pdata.length := by
  unfold Packet.pack at hpack
  cases hpd : payloadBytes p.payload with
  | none => rw [hpd] at hpack; cases hpack
  | some pdata =>
    rw [hpd] at hpack
    dsimp only at hpack
    cases hph : packHeader p.packet_type.value p.packet_address.ip p.packet_address.port
        pdata.length now with
    | none => rw [hph] at hpack; cases hpack
    | some hdr =>
      rw [hph] at hpack
      dsimp only at hpack
      injection hpack with hout
      subst hout
      unfold packHeader at hph
      rcases hip : p.packet_address.ip with _ | ⟨a0, _ | ⟨a1, _ | ⟨a2, _ | ⟨a3, _ | ⟨a4, t5⟩⟩⟩⟩⟩
      all_goals rw [hip] at hph
      all_goals dsimp only at hph
      all_goals try exact Option.noConfusion hph
      split at hph
      case isFalse => exact Option.noConfusion hph
      case isTrue hcond =>
        obtain ⟨hc0, hb0, hb0u, hb1, hb1u, hb2, hb2u, hb3, hb3u, hpl, hpu, hlen⟩ := hcond
        injection hph with hh
        subst hh
        have h256 : (256 : Nat) ^ 8 = 2 ^ 64 := by norm_num
        refine ⟨_, pdata, rfl, ?_, rfl, hlen, ?_, ?_, ?_, ?_⟩
        · simp only [List.length_append, List.length_cons, List.length_nil,
            natToBytesBE_length, packDouble_length, HEADER_SIZE_eq]
        · rw [parseHeader_concat _ _ _ _ _ _ _ _ (natToBytesBE_length _ _)
            (natToBytesBE_length _ _)]
        · rw [parseHeader_concat _ _ _ _ _ _ _ _ (natToBytesBE_length _ _)
            (natToBytesBE_length _ _)]
          dsimp only
          rw [Int.toNat_of_nonneg hb0, Int.toNat_of_nonneg hb1, Int.toNat_of_nonneg hb2,
            Int.toNat_of_nonneg hb3]
        · rw [parseHeader_concat _ _ _ _ _ _ _ _ (natToBytesBE_length _ _)
            (natToBytesBE_length _ _)]
          dsimp only
          exact unpackInt32_roundtrip _ hpl hpu
        · rw [parseHeader_concat _ _ _ _ _ _ _ _ (natToBytesBE_length _ _)
            (natToBytesBE_length _ _)]
          dsimp only
          exact natFromBytesBE_natToBytesBE _ _ (by omega)

/-- C1 (amended): whenever `Packet.pack` succeeds on a message whose kind is
CONTROL, ACK or INTERNAL with the payload shape matching its kind (`pack`
raises `OverflowError` for ACK payloads outside `0..255`), `Packet.unpack`
applied to the packed bytes returns a packet equal to the original in kind,
in the four address octets and port, and in payload, with an empty
remainder. -/
theorem c1_roundtrip (p : Packet) (now : ℚ) (out : List Nat)
    (hkind : p.packet_type = .CONTROL ∨ p.packet_type = .ACK ∨ p.packet_type = .INTERNAL)
    (hmatch : payloadMatchesKind p = true)
    (hpack : Packet.pack p now = some out) :
    ∃ q : Packet, Packet.unpack out = some (some q, []) ∧
      q.packet_type = p.packet_type ∧ q.packet_address = p.packet_address ∧
      q.payload = p.payload := by
  obtain ⟨ptv, addr, pl, ts⟩ := p
  obtain ⟨aip, aport⟩ := addr
  obtain ⟨hdr, pdata, rfl, hhlen, hpd, hplt, hpt, hip, hport, hplen⟩ :=
    Packet.pack_shape _ now out hpack
  dsimp only at hkind hmatch hpd hpt hip hport ⊢
  have htake : (hdr ++ pdata).take HEADER_SIZE = hdr := List.take_left' hhlen
  have hdrop : (hdr ++ pdata).drop HEADER_SIZE = pdata := List.drop_left' hhlen
  have hlen1 : (hdr ++ pdata).length = HEADER_SIZE + pdata.length := by
    rw [List.length_append, hhlen]
  have hrem : (hdr ++ pdata).drop (HEADER_SIZE + pdata.length) = [] := by
    rw [← List.drop_drop, hdrop, List.drop_length]
  unfold Packet.unpack
  rw [htake, hplen, hdrop, List.take_length, hrem]
  rw [if_neg (by omega), if_neg (by omega), hpt, PacketType.fromValue_value]
  dsimp only
  rcases hkind with hk | hk | hk
  all_goals subst hk
  · -- CONTROL
    cases pl with
    | pdict d =>
      dsimp only [payloadBytes] at hpd
      injection hpd with hpd2
      subst hpd2
      dsimp only [decodePayload]
      rw [pickleLoads_pickleDumps]
      refine ⟨_, rfl, rfl, ?_, rfl⟩
      rw [show aip = _ from hip, hport]
    | pimage i => simp [payloadMatchesKind] at hmatch
    | pint n => simp [payloadMatchesKind] at hmatch
    | pstr s => simp [payloadMatchesKind] at hmatch
  · -- ACK
    cases pl with
    | pint n =>
      dsimp only [payloadBytes] at hpd
      split at hpd
      case isFalse => exact Option.noConfusion hpd
      case isTrue hn =>
        injection hpd with hpd2
        subst hpd2
        dsimp only [decodePayload]
        have hfb : natFromBytesBE [n.toNat] = n.toNat := by
          simp [natFromBytesBE]
        rw [hfb, Int.toNat_of_nonneg hn.1]
        refine ⟨_, rfl, rfl, ?_, rfl⟩
        rw [show aip = _ from hip, hport]
    | pdict d => simp [payloadMatchesKind] at hmatch
    | pimage i => simp [payloadMatchesKind] at hmatch
    | pstr s => simp [payloadMatchesKind] at hmatch
  · -- INTERNAL
    cases pl with
    | pstr s =>
      dsimp only [payloadBytes] at hpd
      injection hpd with hpd2
      subst hpd2
      dsimp only [decodePayload]
      rw [pyBytesDecode_utf8Encode]
      refine ⟨_, rfl, rfl, ?_, rfl⟩
      rw [show aip = _ from hip, hport]
    | pdict d => simp [payloadMatchesKind] at hmatch
    | pimage i => simp [payloadMatchesKind] at hmatch
    | pint n => simp [payloadMatchesKind] at hmatch

/-- C1 counterexample: the claim as stated asserts a successful round trip
for every ACK message (with integer payload), but `Packet.pack` already
raises (`OverflowError` from `int.to_bytes()`, modelled `none`) for an ACK
packet with payload 256, so `unpack(pack(m))` returns no message for it. -/
theorem c1_counterexample :
    Packet.pack ⟨.ACK, ⟨[127, 0, 0, 1], 2445⟩, .pint 256, 0⟩ 0 = none := by decide

/-- C1 witness: the amended round trip at a concrete INTERNAL message. -/
theorem c1_witness :
    ∃ q : Packet,
      Packet.unpack ((Packet.pack
          ⟨.INTERNAL, ⟨[127, 0, 0, 1], 2445⟩, .pstr "CONN_SHUTDOWN", 7⟩ 7).getD []) =
        some (some q, []) ∧
      q.packet_type = (⟨.INTERNAL, ⟨[127, 0, 0, 1], 2445⟩, .pstr "CONN_SHUTDOWN", 7⟩ :
        Packet).packet_type ∧
      q.packet_address = (⟨.INTERNAL, ⟨[127, 0, 0, 1], 2445⟩, .pstr "CONN_SHUTDOWN", 7⟩ :
        Packet).packet_address ∧
      q.payload = (⟨.INTERNAL, ⟨[127, 0, 0, 1], 2445⟩, .pstr "CONN_SHUTDOWN", 7⟩ :
        Packet).payload :=
  c1_roundtrip ⟨.INTERNAL, ⟨[127, 0, 0, 1], 2445⟩, .pstr "CONN_SHUTDOWN", 7⟩ 7 _
    (Or.inr (Or.inr rfl)) (by decide) (by decide)

/-- C2 counterexample: a 25-byte buffer whose first byte is 4 holds a
complete frame (payload length field 0) with an invalid `PacketType` value,
so `Packet.unpack` raises `ValueError` (modelled `none`) instead of
returning a (packet-or-none, remainder) pair. -/
theorem c2_counterexample : Packet.unpack (4 :: List.replicate 24 0) = none := by decide

/-- C2 (amended): `Packet.unpack` returns `(NONE, buffer)` without raising
whenever the buffer does not yet hold a complete frame: when it is shorter
than the 25-byte header, and when the header is complete but the
payload-length field exceeds the remaining bytes, however implausibly large
the field is.  (Once a complete frame is present, unpack can still raise,
e.g. on an invalid kind byte — see the counterexample.) -/
theorem c2_no_raise_incomplete (b : List Nat) :
    (b.length < HEADER_SIZE → Packet.unpack b = some (none, b)) ∧
    (HEADER_SIZE ≤ b.length →
      b.length < HEADER_SIZE + (parseHeader (b.take HEADER_SIZE)).plen →
      Packet.unpack b = some (none, b)) := by
  constructor
  · intro h
    unfold Packet.unpack
    rw [if_pos h]
  · intro h1 h2
    unfold Packet.unpack
    rw [if_neg (by omega), if_pos h2]

/-- C2 witness: a 3-byte buffer, and a 25-byte buffer whose payload-length
field is `255 * 256 ^ 7`. -/
theorem c2_witness :
    Packet.unpack [0, 1, 2] = some (none, [0, 1, 2]) ∧
    Packet.unpack (List.replicate 9 0 ++ 255 :: List.replicate 15 0) =
      some (none, List.replicate 9 0 ++ 255 :: List.replicate 15 0) :=
  ⟨(c2_no_raise_incomplete [0, 1, 2]).1 (by decide),
   (c2_no_raise_incomplete _).2 (by decide) (by decide)⟩

/-- C3: for every message whose `pack` succeeds and every proper prefix of
the packed bytes (any length shorter than the full encoding),
`Packet.unpack` returns `(NONE, prefix)` with the buffer unchanged and
without raising. -/
theorem c3_partial_frame (p : Packet) (now : ℚ) (out : List Nat) (k : Nat)
    (hpack : Packet.pack p now = some out) (hk : k < out.length) :
    Packet.unpack (out.take k) = some (none, out.take k) := by
  obtain ⟨hdr, pdata, rfl, hhlen, hpd, hplt, hpt, hip, hport, hplen⟩ :=
    Packet.pack_shape p now out hpack
  have hlen1 : (hdr ++ pdata).length = HEADER_SIZE + pdata.length := by
    rw [List.length_append, hhlen]
  have hklen : (List.take k (hdr ++ pdata)).length = k := by
    rw [List.length_take]
    omega
  rcases Nat.lt_or_ge k HEADER_SIZE with hcase | hcase
  · unfold Packet.unpack
    rw [if_pos (by omega)]
  · have htt : (List.take k (hdr ++ pdata)).take HEADER_SIZE = hdr := by
      rw [List.take_take, min_eq_left hcase, List.take_left' hhlen]
    unfold Packet.unpack
    rw [htt, hklen, hplen]
    rw [if_neg (by omega), if_pos (by omega)]

/-- C3 witness: a proper prefix (10 bytes) of a concrete packed INTERNAL
message. -/
theorem c3_witness :
    Packet.unpack
        (((Packet.pack ⟨.INTERNAL, ⟨[10, 0, 0, 5], 80⟩, .pstr "A", 2⟩ 2).getD []).take 10) =
      some (none,
        ((Packet.pack ⟨.INTERNAL, ⟨[10, 0, 0, 5], 80⟩, .pstr "A", 2⟩ 2).getD []).take 10) :=
  c3_partial_frame ⟨.INTERNAL, ⟨[10, 0, 0, 5], 80⟩, .pstr "A", 2⟩ 2 _ 10 (by decide) (by decide)

/-- C4 counterexample: the header `pack` prepends is 25 bytes, not 23: an
INTERNAL message with empty payload packs to 25 bytes in total,
`struct.calcsize("!BBBBBiQd")` is not 23, and a 24-byte buffer (which the
claim would treat as holding a complete header) is still answered with
`(NONE, buffer)` by the insufficient-header check. -/
theorem c4_counterexample :
    (Packet.pack ⟨.INTERNAL, ⟨[127, 0, 0, 1], 2445⟩, .pstr "", 0⟩ 0).map List.length =
      some 25 ∧
    (23 : Nat) ≠ HEADER_SIZE ∧
    Packet.unpack (List.replicate 24 1) = some (none, List.replicate 24 1) := by decide

/-- C4 (amended): the fixed wire header is exactly 25 bytes
(`struct.calcsize("!BBBBBiQd")` = 5·1 + 4 + 8 + 8), every successful `pack`
output starts with a 25-byte header, and `unpack` reports insufficient
header — `(NONE, buffer)` with the buffer unchanged — precisely when the
buffer holds fewer than 25 bytes: for a buffer of at least 25 bytes, a
`(NONE, buffer)` return can only come from the insufficient-payload check. -/
theorem c4_header_size (b : List Nat) (p : Packet) (now : ℚ) (out : List Nat) :
    HEADER_SIZE = 25 ∧
    (Packet.pack p now = some out → ∃ hdr pdata, out = hdr ++ pdata ∧ hdr.length = 25) ∧
    (b.length < 25 → Packet.unpack b = some (none, b)) ∧
    (25 ≤ b.length → Packet.unpack b = some (none, b) →
      b.length < 25 + (parseHeader (b.take HEADER_SIZE)).plen) := by
  refine ⟨HEADER_SIZE_eq, ?_, ?_, ?_⟩
  · intro hpack
    obtain ⟨hdr, pdata, h1, h2, _⟩ := Packet.pack_shape p now out hpack
    exact ⟨hdr, pdata, h1, by rw [h2, HEADER_SIZE_eq]⟩
  · intro h
    unfold Packet.unpack
    rw [if_pos (by rw [HEADER_SIZE_eq]; omega)]
  · intro h1 h2
    by_contra hcon
    push_neg at hcon
    rw [HEADER_SIZE_eq] at hcon
    unfold Packet.unpack at h2
    rw [if_neg (by rw [HEADER_SIZE_eq]; omega),
      if_neg (by rw [HEADER_SIZE_eq]; omega)] at h2
    cases hfv : PacketType.fromValue (parseHeader (b.take HEADER_SIZE)).ptype with
    | none =>
      rw [hfv] at h2
      exact Option.noConfusion h2
    | some pt =>
      rw [hfv] at h2
      dsimp only at h2
      cases hpo : decodePayload pt
          ((b.drop HEADER_SIZE).take (parseHeader (b.take HEADER_SIZE)).plen) with
      | none =>
        rw [hpo] at h2
        exact Option.noConfusion h2
      | some pl =>
        rw [hpo] at h2
        dsimp only at h2
        injection h2 with h3
        injection h3 with h4 h5
        exact Option.noConfusion h4

/-- C4 witness: a 3-byte buffer is insufficient header; a 25-byte buffer
with a large payload-length field is insufficient payload, not insufficient
header. -/
theorem c4_witness :
    Packet.unpack [9, 9, 9] = some (none, [9, 9, 9]) ∧
    (List.replicate 9 0 ++ 254 :: List.replicate 15 0).length <
      25 + (parseHeader ((List.replicate 9 0 ++ 254 :: List.replicate 15 0).take
        HEADER_SIZE)).plen :=
  ⟨(c4_header_size [9, 9, 9] ⟨.ACK, ⟨[0, 0, 0, 0], 0⟩, .pint 0, 0⟩ 0 []).2.2.1 (by decide),
   (c4_header_size (List.replicate 9 0 ++ 254 :: List.replicate 15 0)
      ⟨.ACK, ⟨[0, 0, 0, 0], 0⟩, .pint 0, 0⟩ 0 []).2.2.2 (by decide) (by decide)⟩

/-- C5 counterexample: `pack` serializes the ACK integer 0 as ONE byte
(`int.to_bytes()` defaults to `length=1`), not as an empty minimal
representation: the payload is `[0]` and the packed message has
26 = 25 + 1 bytes. -/
theorem c5_counterexample :
    payloadBytes (.pint 0) = some [0] ∧
    (Packet.pack ⟨.ACK, ⟨[127, 0, 0, 1], 2445⟩, .pint 0, 0⟩ 0).map List.length =
      some 26 := by
  decide

/-- C5 (amended): the ACK payload is serialized by `int.to_bytes()` with its
Python 3.11 defaults (`length=1, byteorder='big'`): every ACK value in
`0..255` (0 included) occupies exactly one byte holding the value itself,
and `pack` raises `OverflowError` (modelled `none`) for any ACK integer
outside `0..255` — the byte width is a fixed 1, not minimal, and does not
grow with the magnitude of the value. -/
theorem c5_ack_encoding (n : Int) (pt : PacketType) (addr : PacketAddress) (ts now : ℚ) :
    (0 ≤ n ∧ n < 256 →
      payloadBytes (.pint n) = some [n.toNat] ∧ [n.toNat].length = 1) ∧
    (¬ (0 ≤ n ∧ n < 256) →
      payloadBytes (.pint n) = none ∧
      Packet.pack ⟨pt, addr, .pint n, ts⟩ now = none) := by
  constructor
  · intro h
    unfold payloadBytes
    dsimp only
    rw [if_pos h]
    exact ⟨rfl, rfl⟩
  · intro h
    have hpb : payloadBytes (.pint n) = none := by
      unfold payloadBytes
      dsimp only
      rw [if_neg h]
    refine ⟨hpb, ?_⟩
    unfold Packet.pack
    dsimp only
    rw [hpb]

/-- C5 witness: ACK 7 packs to a single byte `[7]`; ACK 300 cannot be
packed. -/
theorem c5_witness :
    (payloadBytes (.pint 7) = some [(7 : Int).toNat] ∧ [(7 : Int).toNat].length = 1) ∧
    (payloadBytes (.pint 300) = none ∧
      Packet.pack ⟨.ACK, ⟨[1, 2, 3, 4], 99⟩, .pint 300, 1⟩ 1 = none) :=
  ⟨(c5_ack_encoding 7 .ACK ⟨[1, 2, 3, 4], 99⟩ 1 1).1 (by decide),
   (c5_ack_encoding 300 .ACK ⟨[1, 2, 3, 4], 99⟩ 1 1).2 (by decide)⟩

theorem isShutdownMsg_setAddr (m : Packet) (a : PacketAddress) :
    isShutdownMsg { m with packet_address := a } = isShutdownMsg m := by
  cases m
  rfl

theorem drainClient_mem (addr : PacketAddress) (q : List Packet) (m : Packet)
    (hm : m ∈ (drainClient addr q).2) :
    ∃ m0 ∈ q, m = { m0 with packet_address := addr } := by
  induction q with
  | nil => cases hm
  | cons x q ih =>
    rw [drainClient] at hm
    split at hm
    · dsimp only at hm
      obtain ⟨m0, hm0, he⟩ := ih hm
      exact ⟨m0, List.mem_cons_of_mem _ hm0, he⟩
    · dsimp only at hm
      rcases List.mem_cons.mp hm with h | h
      · exact ⟨x, List.mem_cons_self _ _, h⟩
      · obtain ⟨m0, hm0, he⟩ := ih h
        exact ⟨m0, List.mem_cons_of_mem _ hm0, he⟩

theorem drainClient_no_shutdown (addr : PacketAddress) (q : List Packet) (m : Packet)
    (hm : m ∈ (drainClient addr q).2) : isShutdownMsg m = false := by
  induction q with
  | nil => cases hm
  | cons x q ih =>
    rw [drainClient] at hm
    split at hm
    · dsimp only at hm
      exact ih hm
    · next hx =>
      dsimp only at hm
      rcases List.mem_cons.mp hm with h | h
      · rw [h, isShutdownMsg_setAddr]
        exact Bool.not_eq_true _ |>.mp hx
      · exact ih h

theorem drainClient_count_pos (addr : PacketAddress) (q : List Packet)
    (hs : ∃ m ∈ q, isShutdownMsg m = true) : 1 ≤ (drainClient addr q).1 := by
  induction q with
  | nil =>
    rcases hs with ⟨m, hm, _⟩
    cases hm
  | cons x q ih =>
    rw [drainClient]
    rcases hs with ⟨m, hm, hsm⟩
    rcases List.mem_cons.mp hm with rfl | hmem
    · rw [if_pos hsm]
      dsimp only
      omega
    · split
      · dsimp only
        omega
      · dsimp only
        exact ih ⟨m, hmem, hsm⟩

theorem pyDel_self (mp : QMap) (a : PacketAddress) (mp2 : QMap)
    (h : pyDel mp a = some mp2) : a ∉ qmapKeys mp2 := by
  rw [pyDel] at h
  split at h
  · injection h with h2
    subst h2
    intro hmem
    rcases List.mem_map.mp hmem with ⟨p, hp, hpa⟩
    have hne := (List.mem_filter.mp hp).2
    simp only [decide_eq_true_eq] at hne
    exact hne hpa
  · exact Option.noConfusion h

theorem pyDel_absent (mp : QMap) (a x : PacketAddress) (mp2 : QMap)
    (h : pyDel mp a = some mp2) (hx : x ∉ qmapKeys mp) : x ∉ qmapKeys mp2 := by
  rw [pyDel] at h
  split at h
  · injection h with h2
    subst h2
    intro hmem
    apply hx
    rcases List.mem_map.mp hmem with ⟨p, hp, hpx⟩
    exact List.mem_map.mpr ⟨p, List.mem_of_mem_filter hp, hpx⟩
  · exact Option.noConfusion h

theorem serverRemove_absent (rm : List PacketAddress) (rx tx rx2 tx2 : QMap)
    (h : serverRemove rm rx tx = some (rx2, tx2)) (x : PacketAddress)
    (hx1 : x ∉ qmapKeys rx) (hx2 : x ∉ qmapKeys tx) :
    x ∉ qmapKeys rx2 ∧ x ∉ qmapKeys tx2 := by
  induction rm generalizing rx tx with
  | nil =>
    rw [serverRemove] at h
    injection h with h2
    injection h2 with e1 e2
    subst e1
    subst e2
    exact ⟨hx1, hx2⟩
  | cons a0 rest ih =>
    rw [serverRemove] at h
    cases hd1 : pyDel rx a0 with
    | none =>
      rw [hd1] at h
      exact Option.noConfusion h
    | some rxd =>
      rw [hd1] at h
      dsimp only at h
      cases hd2 : pyDel tx a0 with
      | none =>
        rw [hd2] at h
        exact Option.noConfusion h
      | some txd =>
        rw [hd2] at h
        dsimp only at h
        exact ih rxd txd h (pyDel_absent rx a0 x rxd hd1 hx1) (pyDel_absent tx a0 x txd hd2 hx2)

theorem serverRemove_removes (rm : List PacketAddress) (rx tx rx2 tx2 : QMap)
    (h : serverRemove rm rx tx = some (rx2, tx2)) :
    ∀ a ∈ rm, a ∉ qmapKeys rx2 ∧ a ∉ qmapKeys tx2 := by
  induction rm generalizing rx tx with
  | nil =>
    intro a ha
    cases ha
  | cons a0 rest ih =>
    intro a ha
    rw [serverRemove] at h
    cases hd1 : pyDel rx a0 with
    | none =>
      rw [hd1] at h
      exact Option.noConfusion h
    | some rxd =>
      rw [hd1] at h
      dsimp only at h
      cases hd2 : pyDel tx a0 with
      | none =>
        rw [hd2] at h
        exact Option.noConfusion h
      | some txd =>
        rw [hd2] at h
        dsimp only at h
        rcases List.mem_cons.mp ha with rfl | hmem
        · exact serverRemove_absent rest rxd txd rx2 tx2 h a
            (pyDel_self rx a rxd hd1) (pyDel_self tx a txd hd2)
        · exact ih rxd txd h a hmem

/-- C6: routing one message from the shared outbound queue: a BROADCAST
message is enqueued to every currently-registered client's outbound queue;
a message naming a registered client is enqueued to that client's queue
only; and with no such client registered a delivery failure is reported and
every registered client's outbound queue is left untouched. -/
theorem c6_outgoing_routing (msg : Packet) (tx : QMap) :
    (msg.packet_address = BROADCAST_DEST →
      (routeOutgoing msg tx).2 = false ∧
      List.Forall₂ (fun before after => after = (before.1, before.2 ++ [msg]))
        tx (routeOutgoing msg tx).1) ∧
    (msg.packet_address ≠ BROADCAST_DEST → msg.packet_address ∈ qmapKeys tx →
      (routeOutgoing msg tx).2 = false ∧
      List.Forall₂ (fun before after =>
          (before.1 = msg.packet_address → after = (before.1, before.2 ++ [msg])) ∧
          (before.1 ≠ msg.packet_address → after = before))
        tx (routeOutgoing msg tx).1) ∧
    (msg.packet_address ≠ BROADCAST_DEST → msg.packet_address ∉ qmapKeys tx →
      routeOutgoing msg tx = (tx, true)) := by
  refine ⟨?_, ?_, ?_⟩
  · intro hb
    rw [routeOutgoing, if_pos hb]
    refine ⟨rfl, ?_⟩
    rw [List.forall₂_map_right_iff]
    exact List.forall₂_same.mpr fun a _ => rfl
  · intro hb hk
    rw [routeOutgoing, if_neg hb, if_pos hk]
    refine ⟨rfl, ?_⟩
    rw [List.forall₂_map_right_iff]
    refine List.forall₂_same.mpr fun a _ => ⟨fun h => ?_, fun h => ?_⟩
    · rw [if_pos h, h]
    · rw [if_neg h]
  · intro hb hk
    rw [routeOutgoing, if_neg hb, if_neg hk]

/-- C6 witness: a unicast message to an unregistered address leaves the one
registered client's queue untouched and reports a failure. -/
theorem c6_witness :
    routeOutgoing ⟨.ACK, ⟨[9, 9, 9, 9], 7⟩, .pint 1, 0⟩
        [(⟨[1, 1, 1, 1], 5⟩, [⟨.ACK, ⟨[1, 1, 1, 1], 5⟩, .pint 2, 0⟩])] =
      ([(⟨[1, 1, 1, 1], 5⟩, [⟨.ACK, ⟨[1, 1, 1, 1], 5⟩, .pint 2, 0⟩])], true) :=
  (c6_outgoing_routing ⟨.ACK, ⟨[9, 9, 9, 9], 7⟩, .pint 1, 0⟩
    [(⟨[1, 1, 1, 1], 5⟩, [⟨.ACK, ⟨[1, 1, 1, 1], 5⟩, .pint 2, 0⟩])]).2.2
    (by decide) (by decide)

/-- C7: every message the routing loop forwards from a registered client's
inbound queue to the shared inbound queue is one of that client's dequeued
messages with its address field overwritten by the client's registered
origin address, regardless of the address it carried on arrival. -/
theorem c7_origin_stamping (rx : QMap) (m : Packet)
    (hm : m ∈ (serverDrainAll rx).2) :
    ∃ aq ∈ rx, ∃ m0 ∈ aq.2, m = { m0 with packet_address := aq.1 } ∧
      m.packet_address = aq.1 := by
  rw [serverDrainAll] at hm
  dsimp only at hm
  rcases List.mem_flatMap.mp hm with ⟨aq, haq, hmem⟩
  obtain ⟨m0, hm0, he⟩ := drainClient_mem aq.1 aq.2 m hmem
  refine ⟨aq, haq, m0, hm0, he, ?_⟩
  rw [he]

/-- C7 witness: a message that arrived carrying address 9.9.9.9:2 is
forwarded stamped with its client's registered address 5.5.5.5:1. -/
theorem c7_witness :
    ∃ aq ∈ ([(⟨[5, 5, 5, 5], 1⟩, [⟨.ACK, ⟨[9, 9, 9, 9], 2⟩, .pint 3, 0⟩])] : QMap),
      ∃ m0 ∈ aq.2, (⟨.ACK, ⟨[5, 5, 5, 5], 1⟩, .pint 3, 0⟩ : Packet) =
          { m0 with packet_address := aq.1 } ∧
        (⟨.ACK, ⟨[5, 5, 5, 5], 1⟩, .pint 3, 0⟩ : Packet).packet_address = aq.1 :=
  c7_origin_stamping [(⟨[5, 5, 5, 5], 1⟩, [⟨.ACK, ⟨[9, 9, 9, 9], 2⟩, .pint 3, 0⟩])]
    ⟨.ACK, ⟨[5, 5, 5, 5], 1⟩, .pint 3, 0⟩ (by decide)

/-- C8: when the rx-drain-and-removal pass completes, no INTERNAL
`CONN_SHUTDOWN` message is among those forwarded to the shared inbound
queue, and any client whose inbound queue contained such a message has its
entries removed from both the per-client inbound and outbound maps. -/
theorem c8_shutdown_removal (rx tx rx2 tx2 : QMap) (fwd : List Packet)
    (a : PacketAddress) (q : List Packet)
    (hstep : serverRxStep rx tx = some (rx2, tx2, fwd)) :
    (∀ m ∈ fwd, isShutdownMsg m = false) ∧
    ((a, q) ∈ rx → (∃ m ∈ q, isShutdownMsg m = true) →
      a ∉ qmapKeys rx2 ∧ a ∉ qmapKeys tx2) := by
  rw [serverRxStep] at hstep
  cases hsr : serverRemove (serverDrainAll rx).1 rx tx with
  | none =>
    rw [hsr] at hstep
    exact Option.noConfusion hstep
  | some p =>
    obtain ⟨rxr, txr⟩ := p
    rw [hsr] at hstep
    dsimp only at hstep
    injection hstep with h2
    injection h2 with e1 h3
    injection h3 with e2 e3
    subst e1
    subst e2
    subst e3
    constructor
    · intro m hm
      rw [serverDrainAll] at hm
      dsimp only at hm
      rcases List.mem_flatMap.mp hm with ⟨aq, _, hmem⟩
      exact drainClient_no_shutdown aq.1 aq.2 m hmem
    · intro hmem hsd
      have hcount : 1 ≤ (drainClient a q).1 := drainClient_count_pos a q hsd
      have hrm : a ∈ (serverDrainAll rx).1 := by
        rw [serverDrainAll]
        dsimp only
        refine List.mem_flatMap.mpr ⟨(a, q), hmem, ?_⟩
        show a ∈ List.replicate (drainClient a q).1 a
        exact List.mem_replicate.mpr ⟨by omega, rfl⟩
      exact serverRemove_removes _ rx tx _ _ hsr a hrm

/-- C8 witness: a client whose queue holds exactly the shutdown sentinel is
removed from both (singleton) maps and nothing is forwarded. -/
theorem c8_witness :
    (⟨[1, 2, 3, 4], 9⟩ : PacketAddress) ∉ qmapKeys [] ∧
    (⟨[1, 2, 3, 4], 9⟩ : PacketAddress) ∉ qmapKeys [] :=
  (c8_shutdown_removal
      [(⟨[1, 2, 3, 4], 9⟩, [⟨.INTERNAL, BROADCAST_DEST, .pstr "CONN_SHUTDOWN", 0⟩])]
      [(⟨[1, 2, 3, 4], 9⟩, [])] [] [] [] ⟨[1, 2, 3, 4], 9⟩
      [⟨.INTERNAL, BROADCAST_DEST, .pstr "CONN_SHUTDOWN", 0⟩] (by decide)).2
    (by decide)
    ⟨⟨.INTERNAL, BROADCAST_DEST, .pstr "CONN_SHUTDOWN", 0⟩, by decide, by decide⟩

/-- C9 counterexample: with retry interval 10, a trace in which the initial
connection attempt succeeds at time 1000 (`prev_connection_time` stays 0), a
CONN_SHUTDOWN is observed at 1005, and the next iteration at time 1006
already makes a new connection attempt, although only 6 < 10 seconds have
elapsed since the last connection attempt — the gate compares against
`prev_connection_time`, which only failed attempts update. -/
theorem c9_counterexample :
    ((clientStep 10 ⟨true, 0⟩ 1000 true none).2.1 = true ∧
      (clientStep 10 ⟨true, 0⟩ 1000 true none).1 = ⟨false, 0⟩) ∧
    (clientStep 10 ⟨false, 0⟩ 1005 false
      (some ⟨.INTERNAL, BROADCAST_DEST, .pstr "CONN_SHUTDOWN", 0⟩)).1 = ⟨true, 0⟩ ∧
    ((clientStep 10 ⟨true, 0⟩ 1006 false none).2.1 = true ∧ (1006 : ℚ) - 1000 < 10) := by
  have h1 : clientStep 10 ⟨true, 0⟩ 1000 true none = (⟨false, 0⟩, true, none) := by
    unfold clientStep
    rw [if_pos rfl, if_pos (by norm_num), if_pos rfl]
  have h2 : clientStep 10 ⟨false, 0⟩ 1005 false
      (some ⟨.INTERNAL, BROADCAST_DEST, .pstr "CONN_SHUTDOWN", 0⟩) = (⟨true, 0⟩, false, none) := by
    unfold clientStep
    rw [if_neg (by exact Bool.false_ne_true)]
    dsimp only
    rw [if_pos (by decide)]
  have h3 : clientStep 10 ⟨true, 0⟩ 1006 false none = (⟨true, 1006⟩, true, none) := by
    unfold clientStep
    rw [if_pos rfl, if_pos (by norm_num), if_neg (by exact Bool.false_ne_true)]
  rw [h1, h2, h3]
  exact ⟨⟨rfl, rfl⟩, rfl, rfl, by norm_num⟩

/-- C9 (amended): the reconnect gate measures from the last *failed*
connection attempt, not from the last attempt: an iteration makes a
connection attempt exactly when the client is disconnected and
`now - prev_connection_time > retry_interval`; `prev_connection_time` is
set to `now` only by a failed attempt; and observing CONN_SHUTDOWN while
connected returns the client to DISCONNECTED with `prev_connection_time`
unchanged — so a connection established without a preceding recent failure
may be retried immediately after it dies. -/
theorem c9_retry_gate (itv : ℚ) (s : ClientState) (now : ℚ) (ok : Bool)
    (inc : Option Packet) :
    ((clientStep itv s now ok inc).2.1 = true ↔
      s.disconnected = true ∧ itv < now - s.prev_connection_time) ∧
    (∀ m, s.disconnected = false → inc = some m → isShutdownMsg m = true →
      (clientStep itv s now ok inc).1 = ⟨true, s.prev_connection_time⟩) ∧
    (s.disconnected = true → itv < now - s.prev_connection_time → ok = false →
      (clientStep itv s now ok inc).1 = ⟨true, now⟩) := by
  obtain ⟨d, prev⟩ := s
  refine ⟨?_, ?_, ?_⟩
  · unfold clientStep
    dsimp only
    cases d with
    | false =>
      simp only [if_neg (Bool.false_ne_true ∘ id)]
      constructor
      · intro h
        exfalso
        cases inc with
        | none => exact Bool.noConfusion h
        | some m =>
          dsimp only at h
          split at h
          · exact Bool.noConfusion h
          · exact Bool.noConfusion h
      · rintro ⟨h, _⟩
        exact Bool.noConfusion h
    | true =>
      rw [if_pos rfl]
      by_cases hgate : itv < now - prev
      · rw [if_pos hgate]
        cases ok <;> simp [hgate]
      · rw [if_neg hgate]
        simp [hgate]
  · intro m hd hinc hsm
    subst hd
    subst hinc
    unfold clientStep
    dsimp only
    rw [if_neg (by exact Bool.false_ne_true), if_pos hsm]
  · intro hd hgate hok
    subst hd
    subst hok
    unfold clientStep
    dsimp only
    rw [if_pos rfl, if_pos hgate]
    rfl

/-- C9 witness: a failed attempt at time 20 (interval 10, last failure at 3)
records `prev_connection_time = 20`. -/
theorem c9_witness :
    (clientStep 10 ⟨true, 3⟩ 20 false none).1 = ⟨true, 20⟩ :=
  (c9_retry_gate 10 ⟨true, 3⟩ 20 false none).2.2 rfl (by norm_num) rfl

theorem parseSegments_none (l : List String) (hs : ∃ seg ∈ l, pyInt? seg = none) :
    parseSegments l = none := by
  induction l with
  | nil =>
    rcases hs with ⟨seg, hseg, _⟩
    cases hseg
  | cons s rest ih =>
    rcases hs with ⟨seg, hseg, hnone⟩
    rw [parseSegments]
    rcases List.mem_cons.mp hseg with rfl | hmem
    · rw [hnone]
    · cases hp : pyInt? s with
      | none => rfl
      | some v =>
        rw [ih ⟨seg, hmem, hnone⟩]

/-- C10: the `PacketAddress` constructor raises ValueError for a tuple whose
length is not 4 and for a dotted string with a non-integer segment, but it
accepts any dotted string of integers regardless of segment count — the
parsed segments become the `ip` tuple verbatim, so `"1.2.3"` yields an
address whose ip is the 3-tuple `(1, 2, 3)`; a constructed address therefore
need not have exactly 4 octets. -/
theorem c10_address_ctor (t : List Int) (port : Int) (s : String) :
    (t.length ≠ 4 → PacketAddress.make (.tup t) port = none) ∧
    ((∃ seg ∈ pySplitDot s, pyInt? seg = none) →
      PacketAddress.make (.str s) port = none) ∧
    (∀ vs, parseSegments (pySplitDot s) = some vs →
      PacketAddress.make (.str s) port = some ⟨vs, port⟩) ∧
    (PacketAddress.make (.str "1.2.3") 80 = some ⟨[1, 2, 3], 80⟩ ∧
      ([(1 : Int), 2, 3] : List Int).length = 3) := by
  refine ⟨?_, ?_, ?_, by decide⟩
  · intro h
    rw [PacketAddress.make]
    rw [if_neg h]
  · intro hs
    rw [PacketAddress.make]
    rw [parseSegments_none _ hs]
  · intro vs hvs
    rw [PacketAddress.make]
    rw [hvs]

/-- C10 witness: a 3-tuple is rejected; `"1.a.3.4"` is rejected; the
3-segment string `"10.20.30"` is accepted with a 3-octet ip. -/
theorem c10_witness :
    PacketAddress.make (.tup [1, 2, 3]) 5 = none ∧
    PacketAddress.make (.str "1.a.3.4") 5 = none ∧
    PacketAddress.make (.str "10.20.30") 5 = some ⟨[10, 20, 30], 5⟩ :=
  ⟨(c10_address_ctor [1, 2, 3] 5 "x").1 (by decide),
   (c10_address_ctor [] 5 "1.a.3.4").2.1 ⟨"a", by decide, by decide⟩,
   (c10_address_ctor [] 5 "10.20.30").2.2.1 [10, 20, 30] (by decide)⟩

end Legolas
